import Mathlib

/-!
Verification of the Text Insight Studio repository.

The repository ships a Next.js client (src/app/page.tsx) that posts text to
a serverless analysis endpoint (api/python/analyze.py).  The client is
embedded below from its source; the analysis core is not part of the visible
sources, so it is modelled from the specification (spec.md §4), faithful to
its words: normalization → tokenization → metric aggregation → sentiment
scoring → keyword extraction.  Real-number results of the core are modelled
as exact rationals.
-/

namespace TextInsight

abbrev Token := List Char

/-- Modelled from the spec: §4.2 word-constituent characters are letters and
digits; the sample content is Cyrillic, so the Cyrillic block is included. -/
def isWordChar (c : Char) : Bool :=
  c.isAlpha || c.isDigit || (0x400 ≤ c.toNat && c.toNat ≤ 0x4FF)

/-- Modelled from the spec: §4.2 terminal punctuation marks. -/
def isTerminal (c : Char) : Bool :=
  c == '.' || c == '!' || c == '?'

/-- Modelled from the spec: §4.3 case-folding is a simple lowercase mapping. -/
def lowerTok (t : Token) : Token :=
  t.map Char.toLower

/-- Trimming of leading/trailing whitespace (spec §4.1, and the client's
text.trim() guard in page.tsx). -/
def trim (s : List Char) : List Char :=
  ((s.dropWhile Char.isWhitespace).reverse.dropWhile Char.isWhitespace).reverse

/-- Split a character list at every character satisfying p; the segments
between the separators are returned in order (possibly empty segments). -/
def splitOnP (p : Char → Bool) : List Char → List (List Char)
  | [] => [[]]
  | c :: cs =>
    if p c then [] :: splitOnP p cs
    else
      match splitOnP p cs with
      | [] => [[c]]
      | seg :: rest => (c :: seg) :: rest

/-- Modelled from the spec: §4.2 word tokenization, maximal runs of
word-constituent characters; empty runs are never emitted. -/
def wordTokens (s : List Char) : List Token :=
  (splitOnP (fun c => !isWordChar c) s).filter (fun seg => !seg.isEmpty)

/-- The case-folded word-token stream of a text (spec §4.3). -/
def lowerTokens (s : List Char) : List Token :=
  (wordTokens s).map lowerTok

/-- Modelled from the spec: §4.2 sentence tokenization, segments delimited by
terminal punctuation that contain at least one word token; consecutive
terminators collapse because wordless segments are not counted. -/
def sentenceCount (s : List Char) : Nat :=
  ((splitOnP isTerminal s).filter (fun seg => seg.any isWordChar)).length

/-- Remove duplicates keeping the first occurrence of each token; seen holds
the tokens already emitted. -/
def dedupFirstAux (seen : List Token) : List Token → List Token
  | [] => []
  | t :: ts =>
    if t ∈ seen then dedupFirstAux seen ts
    else t :: dedupFirstAux (t :: seen) ts

/-- Distinct tokens in first-occurrence order. -/
def dedupFirst (l : List Token) : List Token :=
  dedupFirstAux [] l

/-- Modelled from the spec: §4.4 illustrative positive lexicon. -/
def POSITIVE_LEXICON : List Token :=
  ["success", "great", "positive", "intuitive", "overwhelmingly",
    "achievable"].map String.toList

/-- Modelled from the spec: §4.4 illustrative negative lexicon. -/
def NEGATIVE_LEXICON : List Token :=
  ["roadblock", "fail", "negative", "problem", "bug"].map String.toList

/-- Polarity of one case-folded token: +1 in the positive lexicon, -1 in the
negative lexicon, 0 otherwise (spec §4.4). -/
def polarity (t : Token) : Int :=
  if t ∈ POSITIVE_LEXICON then 1 else if t ∈ NEGATIVE_LEXICON then -1 else 0

/-- Modelled from the spec: §4.4 running sentiment score over the case-folded
word tokens. -/
def sentTotal (toks : List Token) : Int :=
  toks.foldl (fun acc t => acc + polarity t) 0

/-- Modelled from the spec: §4.4 symmetric positive threshold (±0.05). -/
def thresholdPos : ℚ := 1 / 20

/-- Modelled from the spec: §4.4 symmetric negative threshold (±0.05). -/
def thresholdNeg : ℚ := -(1 / 20)

/-- Modelled from the spec: §4.4 thresholding of the normalized score. -/
def labelOf (score : ℚ) : String :=
  if thresholdPos < score then "positive"
  else if score < thresholdNeg then "negative"
  else "neutral"

/-- Keyword length cutoff: strictly more than 5 characters (spec §4.5 and the
hint shown in page.tsx). -/
def minKeywordLength : Nat := 5

/-- Number of keywords returned, K = 5 (spec §4.5). -/
def keywordLimit : Nat := 5

/-- Frequency of a token in the case-folded token stream. -/
def freqIn (toks : List Token) (t : Token) : Nat :=
  toks.count t

/-- Position of the first occurrence of a token in the token stream (the
length of the stream when absent). -/
def firstIdx : List Token → Token → Nat
  | [], _ => 0
  | u :: us, t => if u = t then 0 else firstIdx us t + 1

/-- Ranking preorder for keywords: higher frequency first, ties broken by the
earlier first occurrence in the token stream (spec §4.5). -/
def KwLE (toks : List Token) (a b : Token) : Prop :=
  freqIn toks b < freqIn toks a ∨
    (freqIn toks a = freqIn toks b ∧ firstIdx toks a ≤ firstIdx toks b)

instance (toks : List Token) : DecidableRel (KwLE toks) := fun a b => by
  unfold KwLE; infer_instance

/-- Modelled from the spec: §4.5 keyword candidates, the distinct case-folded
tokens longer than the cutoff, in first-occurrence order. -/
def keywordCandidates (toks : List Token) : List Token :=
  dedupFirst (toks.filter (fun t => minKeywordLength < t.length))

/-- Modelled from the spec: §4.5 keyword extraction, candidates ranked by
descending frequency with first-occurrence tie-break, top K returned. -/
def keywordsOf (toks : List Token) : List Token :=
  (List.insertionSort (KwLE toks) (keywordCandidates toks)).take keywordLimit

inductive AnalyzeError where
  | emptyInput
deriving DecidableEq, Repr

structure AnalysisResult where
  characters : Nat
  words : Nat
  uniqueWords : Nat
  sentences : Nat
  estimatedReadMinutes : ℚ
  sentimentScore : ℚ
  sentimentLabel : String
  keywords : List Token
deriving DecidableEq, Repr

/-- Modelled from the spec: the analysis core api/python/analyze.py is not in
the visible sources; §4.6 orchestration of validation, tokenization, metric
aggregation, sentiment scoring and keyword extraction. -/
def analyze (s : List Char) : Except AnalyzeError AnalysisResult :=
  let t := trim s
  if t = [] then Except.error AnalyzeError.emptyInput
  else
    let toks := lowerTokens t
    let w := toks.length
    let score : ℚ := (sentTotal toks : ℚ) / (max w 1 : ℚ)
    Except.ok
      { characters := t.length
        words := w
        uniqueWords := (dedupFirst toks).length
        sentences := sentenceCount t
        estimatedReadMinutes := (w : ℚ) / 200
        sentimentScore := score
        sentimentLabel := labelOf score
        keywords := keywordsOf toks }

/-! ### The client, embedded from src/app/page.tsx -/

/-- The client's request-phase state, from the FetchState union in page.tsx. -/
inductive FetchState where
  | idle
  | loading
  | error (message : String)
  | success (result : AnalysisResult)
deriving DecidableEq, Repr

instance {ε α : Type} [DecidableEq ε] [DecidableEq α] : DecidableEq (Except ε α)
  | Except.error e, Except.error f =>
    if h : e = f then isTrue (by rw [h])
    else isFalse (fun hc => h (by injection hc))
  | Except.error _, Except.ok _ => isFalse (fun hc => Except.noConfusion hc)
  | Except.ok _, Except.error _ => isFalse (fun hc => Except.noConfusion hc)
  | Except.ok a, Except.ok b =>
    if h : a = b then isTrue (by rw [h])
    else isFalse (fun hc => h (by injection hc))

/-- Outcome of the fetch to /api/python/analyze, as observed by the client:
the fetch promise rejects (netError, with whether the thrown value is an
Error instance and its message), the response is non-ok (notOk, with the
error field of the JSON body: none = body not parseable, some none = no
error field, some (some m) = error field m), or the response is ok (respOk,
with the parse of the body as a result, or the message of the parse error). -/
inductive FetchOutcome where
  | netError (isErrorInstance : Bool) (message : String)
  | notOk (errorField : Option (Option String))
  | respOk (parsed : Except String AnalysisResult)
deriving DecidableEq, Repr

/-- Validation message of the client, page.tsx line 57. -/
def emptyInputMsg : String := "Введите текст для анализа."

/-- Fallback when a non-ok response has no usable error field, line 76. -/
def fallbackMsg : String := "Не удалось выполнить анализ."

/-- Message when the caught value is not an Error instance, line 83. -/
def unknownErrorMsg : String := "Неизвестная ошибка."

/-- The handleAnalyze handler of page.tsx: returns the final FetchState of
the invocation and whether a request was issued.  An empty trimmed text
short-circuits to an error state with no request; otherwise the state after
the request follows the try/catch of lines 62-86: a thrown Error surfaces
its message, a non-Error the fixed unknown-error message; a non-ok response
throws the body's error field when present, else the fallback message. -/
def handleAnalyze (text : List Char) (outcome : FetchOutcome) :
    FetchState × Bool :=
  if trim text = [] then (FetchState.error emptyInputMsg, false)
  else
    match outcome with
    | FetchOutcome.netError isErr msg =>
        (FetchState.error (if isErr then msg else unknownErrorMsg), true)
    | FetchOutcome.notOk payload =>
        (FetchState.error
          (match payload with
            | some (some m) => m
            | _ => fallbackMsg), true)
    | FetchOutcome.respOk (Except.error msg) => (FetchState.error msg, true)
    | FetchOutcome.respOk (Except.ok r) => (FetchState.success r, true)

/-- The analyze button's disabled attribute, page.tsx line 124. -/
def buttonDisabled (s : FetchState) : Bool :=
  match s with
  | FetchState.loading => true
  | _ => false

/-- A click on the analyze button: a disabled button fires no handler, so
the state is unchanged and no request is issued. -/
def clickAnalyze (s : FetchState) (text : List Char) (outcome : FetchOutcome) :
    FetchState × Bool :=
  if buttonDisabled s then (s, false) else handleAnalyze text outcome

/-- Whether the state is a terminal outcome of a request (success or error),
as opposed to idle or loading. -/
def isSettledState (s : FetchState) : Bool :=
  match s with
  | FetchState.success _ => true
  | FetchState.error _ => true
  | _ => false

/-- The claimed stronger form: a terminal outcome whose error message, if
any, is non-empty. -/
def isSettledNonempty (s : FetchState) : Bool :=
  match s with
  | FetchState.success _ => true
  | FetchState.error m => !(m == "")
  | _ => false

/-! ### The transport boundary (spec §6) -/

inductive Json where
  | str (s : List Char)
  | num (q : ℚ)
  | arr (xs : List Json)
  | obj (fields : List (String × Json))

/-- The request body built by the client, JSON.stringify of an object with
the single field text (page.tsx line 69). -/
def requestBody (text : List Char) : Json :=
  Json.obj [("text", Json.str text)]

/-- JSON encoding of an AnalysisResult: sentimentScore as a number,
sentimentLabel as a string literal, keywords as an array of strings. -/
def encodeResult (r : AnalysisResult) : Json :=
  Json.obj
    [("characters", Json.num r.characters),
      ("words", Json.num r.words),
      ("uniqueWords", Json.num r.uniqueWords),
      ("sentences", Json.num r.sentences),
      ("estimatedReadMinutes", Json.num r.estimatedReadMinutes),
      ("sentimentScore", Json.num r.sentimentScore),
      ("sentimentLabel", Json.str r.sentimentLabel.toList),
      ("keywords", Json.arr (r.keywords.map Json.str))]

/-- Modelled from the spec: the validation message of the missing endpoint;
§6 only requires some error string. -/
def serverErrorMsg : String := "Текст не должен быть пустым."

/-- Modelled from the spec: §6 response shape of the endpoint, a status code
and a JSON body: 200 with a result object on success, 400 with an error
object when validation fails. -/
def serverRespond (text : List Char) : Nat × Json :=
  match analyze text with
  | Except.ok r => (200, Json.obj [("result", encodeResult r)])
  | Except.error _ => (400, Json.obj [("error", Json.str serverErrorMsg.toList)])

/-! ### Helper lemmas -/

theorem mem_trim {c : Char} {s : List Char} (h : c ∈ trim s) : c ∈ s := by
  unfold trim at h
  rw [List.mem_reverse] at h
  have h1 := (List.dropWhile_sublist _).subset h
  rw [List.mem_reverse] at h1
  exact (List.dropWhile_sublist _).subset h1

theorem splitOnP_ne_nil (p : Char → Bool) (s : List Char) :
    splitOnP p s ≠ [] := by
  induction s with
  | nil => simp [splitOnP]
  | cons c cs ih =>
    simp only [splitOnP]
    split
    · simp
    · split
      · next heq => exact absurd heq ih
      · simp

theorem splitOnP_eq_self {p : Char → Bool} {s : List Char}
    (h : ∀ c ∈ s, p c = false) : splitOnP p s = [s] := by
  induction s with
  | nil => rfl
  | cons c cs ih =>
    have hc : p c = false := h c (by simp)
    have ih2 : splitOnP p cs = [cs] := ih (fun d hd => h d (by simp [hd]))
    simp [splitOnP, hc, ih2]

theorem mem_splitOnP {p : Char → Bool} {c : Char} :
    ∀ {s seg : List Char}, seg ∈ splitOnP p s → c ∈ seg →
      c ∈ s ∧ p c = false := by
  intro s
  induction s with
  | nil =>
    intro seg hseg hc
    simp only [splitOnP, List.mem_singleton] at hseg
    subst hseg
    simp at hc
  | cons d ds ih =>
    intro seg hseg hc
    simp only [splitOnP] at hseg
    cases hpd : p d with
    | true =>
      rw [if_pos hpd] at hseg
      rcases List.mem_cons.mp hseg with h1 | h1
      · subst h1; simp at hc
      · have h2 := ih h1 hc
        exact ⟨List.mem_cons_of_mem _ h2.1, h2.2⟩
    | false =>
      rw [if_neg (by simp [hpd])] at hseg
      cases hsp : splitOnP p ds with
      | nil => exact absurd hsp (splitOnP_ne_nil p ds)
      | cons s0 rest =>
        rw [hsp] at hseg
        rcases List.mem_cons.mp hseg with h1 | h1
        · subst h1
          rcases List.mem_cons.mp hc with h2 | h2
          · subst h2; exact ⟨List.mem_cons_self _ _, hpd⟩
          · have hs0 : s0 ∈ splitOnP p ds := by rw [hsp]; exact List.mem_cons_self _ _
            have h3 := ih hs0 h2
            exact ⟨List.mem_cons_of_mem _ h3.1, h3.2⟩
        · have hrest : seg ∈ splitOnP p ds := by rw [hsp]; exact List.mem_cons_of_mem _ h1
          have h3 := ih hrest hc
          exact ⟨List.mem_cons_of_mem _ h3.1, h3.2⟩

theorem any_isWordChar_of_wordTokens_ne_nil {s : List Char}
    (h : wordTokens s ≠ []) : s.any isWordChar = true := by
  unfold wordTokens at h
  rcases List.exists_mem_of_ne_nil _ h with ⟨seg, hseg⟩
  rcases List.mem_filter.mp hseg with ⟨hmem, hne⟩
  cases seg with
  | nil => simp at hne
  | cons c rest =>
    have h2 := mem_splitOnP hmem (List.mem_cons_self c rest)
    refine List.any_eq_true.mpr ⟨c, h2.1, ?_⟩
    have h3 := h2.2
    simp only [Bool.not_eq_false'] at h3
    exact h3

theorem dedupFirstAux_sublist (seen : List Token) (l : List Token) :
    List.Sublist (dedupFirstAux seen l) l := by
  induction l generalizing seen with
  | nil => simp [dedupFirstAux]
  | cons t ts ih =>
    simp only [dedupFirstAux]
    split
    · exact (ih seen).cons t
    · exact (ih (t :: seen)).cons₂ t

theorem not_mem_seen_of_mem_dedupFirstAux {x : Token} :
    ∀ {seen l : List Token}, x ∈ dedupFirstAux seen l → x ∉ seen := by
  intro seen l
  induction l generalizing seen with
  | nil => intro h; simp [dedupFirstAux] at h
  | cons t ts ih =>
    intro h
    simp only [dedupFirstAux] at h
    split at h
    · exact ih h
    · next hts =>
      rcases List.mem_cons.mp h with h1 | h1
      · subst h1; exact hts
      · intro hx
        exact ih h1 (List.mem_cons_of_mem _ hx)

theorem nodup_dedupFirstAux : ∀ {seen l : List Token},
    (dedupFirstAux seen l).Nodup := by
  intro seen l
  induction l generalizing seen with
  | nil => simp [dedupFirstAux]
  | cons t ts ih =>
    simp only [dedupFirstAux]
    split
    · exact ih
    · refine List.nodup_cons.mpr ⟨?_, ih⟩
      intro hmem
      exact not_mem_seen_of_mem_dedupFirstAux hmem (List.mem_cons_self _ _)

theorem nodup_dedupFirst (l : List Token) : (dedupFirst l).Nodup :=
  nodup_dedupFirstAux

theorem dedupFirst_sublist (l : List Token) :
    List.Sublist (dedupFirst l) l :=
  dedupFirstAux_sublist [] l

theorem foldl_polarity (a : Int) (l : List Token) :
    l.foldl (fun acc t => acc + polarity t) a = a + (l.map polarity).sum := by
  induction l generalizing a with
  | nil => simp
  | cons t ts ih => simp [ih, add_assoc]

theorem sentTotal_eq_sum (toks : List Token) :
    sentTotal toks = (toks.map polarity).sum := by
  simpa using foldl_polarity 0 toks

theorem firstIdx_inj {a b : Token} :
    ∀ {l : List Token}, a ∈ l → b ∈ l → firstIdx l a = firstIdx l b → a = b := by
  intro l
  induction l with
  | nil => intro ha _ _; simp at ha
  | cons c cs ih =>
    intro ha hb h
    simp only [firstIdx] at h
    by_cases hca : c = a
    · by_cases hcb : c = b
      · rw [← hca, ← hcb]
      · rw [if_pos hca, if_neg hcb] at h
        omega
    · by_cases hcb : c = b
      · rw [if_neg hca, if_pos hcb] at h
        omega
      · rw [if_neg hca, if_neg hcb] at h
        have ha2 : a ∈ cs := by
          rcases List.mem_cons.mp ha with h1 | h1
          · exact absurd h1.symm hca
          · exact h1
        have hb2 : b ∈ cs := by
          rcases List.mem_cons.mp hb with h1 | h1
          · exact absurd h1.symm hcb
          · exact h1
        exact ih ha2 hb2 (by omega)

theorem kwLE_total (toks : List Token) (a b : Token) :
    KwLE toks a b ∨ KwLE toks b a := by
  unfold KwLE
  omega

theorem kwLE_trans (toks : List Token) {a b c : Token}
    (h1 : KwLE toks a b) (h2 : KwLE toks b c) : KwLE toks a c := by
  unfold KwLE at h1 h2 ⊢
  omega

instance (toks : List Token) : IsTotal Token (KwLE toks) :=
  ⟨kwLE_total toks⟩

instance (toks : List Token) : IsTrans Token (KwLE toks) :=
  ⟨fun _ _ _ h1 h2 => kwLE_trans toks h1 h2⟩

/-- Destructuring of a successful analysis into its defining fields. -/
theorem analyze_eq_ok {s : List Char} {r : AnalysisResult}
    (h : analyze s = Except.ok r) :
    trim s ≠ [] ∧
    r = { characters := (trim s).length
          words := (lowerTokens (trim s)).length
          uniqueWords := (dedupFirst (lowerTokens (trim s))).length
          sentences := sentenceCount (trim s)
          estimatedReadMinutes := ((lowerTokens (trim s)).length : ℚ) / 200
          sentimentScore := (sentTotal (lowerTokens (trim s)) : ℚ) /
            (max (lowerTokens (trim s)).length 1 : ℚ)
          sentimentLabel := labelOf ((sentTotal (lowerTokens (trim s)) : ℚ) /
            (max (lowerTokens (trim s)).length 1 : ℚ))
          keywords := keywordsOf (lowerTokens (trim s)) } := by
  simp only [analyze] at h
  split at h
  · exact absurd h (by simp)
  · next hne =>
    refine ⟨hne, ?_⟩
    injection h with h2
    exact h2.symm

/-- Two sequential invocations of the analysis on the same input. -/
def analyzeTwice (s : List Char) :
    Except AnalyzeError AnalysisResult × Except AnalyzeError AnalysisResult :=
  (analyze s, analyze s)

/-! ### Claims -/

/-- C1: input that is empty or whitespace-only after trimming makes the
analysis fail with EmptyInputError and never return a result; the client
turns such input into an error state with a user-facing message and issues
no request. -/
theorem claim_C1 (s : List Char) (h : trim s = []) :
    analyze s = Except.error AnalyzeError.emptyInput ∧
    ∀ outcome, handleAnalyze s outcome = (FetchState.error emptyInputMsg, false) := by
  constructor
  · simp [analyze, h]
  · intro outcome
    simp [handleAnalyze, h]

theorem claim_C1_witness :
    trim "   ".toList = [] ∧
    analyze "   ".toList = Except.error AnalyzeError.emptyInput ∧
    handleAnalyze "   ".toList (FetchOutcome.notOk none) =
      (FetchState.error emptyInputMsg, false) :=
  ⟨by decide, (claim_C1 _ (by decide)).1, (claim_C1 _ (by decide)).2 _⟩

/-- C2: for every non-empty input, the number of distinct case-folded word
tokens is at most the number of word tokens. -/
theorem claim_C2 (s : List Char) (r : AnalysisResult)
    (h : analyze s = Except.ok r) : r.uniqueWords ≤ r.words := by
  rcases analyze_eq_ok h with ⟨-, rfl⟩
  exact (dedupFirst_sublist _).length_le

def demo2 : List Char := "hello hello".toList

def rDemo2 : AnalysisResult :=
  ⟨11, 2, 1, 1, 1 / 100, 0, "neutral", []⟩

theorem claim_C2_witness : rDemo2.uniqueWords ≤ rDemo2.words :=
  claim_C2 demo2 rDemo2 (by with_unfolding_all decide)

/-- C3: a non-empty input with at least one word token and no terminal
punctuation yields exactly one sentence, not zero. -/
theorem claim_C3 (s : List Char) (r : AnalysisResult)
    (h : analyze s = Except.ok r)
    (hw : wordTokens (trim s) ≠ [])
    (ht : ∀ c ∈ s, isTerminal c = false) :
    r.sentences = 1 := by
  rcases analyze_eq_ok h with ⟨-, rfl⟩
  show sentenceCount (trim s) = 1
  unfold sentenceCount
  have hts : ∀ c ∈ trim s, isTerminal c = false := fun c hc => ht c (mem_trim hc)
  rw [splitOnP_eq_self hts]
  have hany := any_isWordChar_of_wordTokens_ne_nil hw
  simp [List.filter, hany]

def demo3 : List Char := "hello world".toList

def rDemo3 : AnalysisResult :=
  ⟨11, 2, 2, 1, 1 / 100, 0, "neutral", []⟩

theorem claim_C3_witness : rDemo3.sentences = 1 :=
  claim_C3 demo3 rDemo3 (by with_unfolding_all decide) (by decide) (by decide)

/-- C4: the estimated reading time is the word count divided by 200, with no
rounding applied by the core (real arithmetic modelled by exact rationals). -/
theorem claim_C4 (s : List Char) (r : AnalysisResult)
    (h : analyze s = Except.ok r) :
    r.estimatedReadMinutes = (r.words : ℚ) / 200 := by
  rcases analyze_eq_ok h with ⟨-, rfl⟩
  rfl

def demo4 : List Char := "abc".toList

def rDemo4 : AnalysisResult :=
  ⟨3, 1, 1, 1, 1 / 200, 0, "neutral", []⟩

theorem claim_C4_witness :
    rDemo4.estimatedReadMinutes = (rDemo4.words : ℚ) / 200 :=
  claim_C4 demo4 rDemo4 (by with_unfolding_all decide)

/-- C5: the sentiment score is the sum of per-token polarities (+1 positive
lexicon, -1 negative lexicon, 0 otherwise) over the case-folded word tokens,
divided by max(words, 1); the label comes from symmetric thresholding of the
score and is always one of positive, negative, neutral. -/
theorem claim_C5 (s : List Char) (r : AnalysisResult)
    (h : analyze s = Except.ok r) :
    r.sentimentScore =
      ((((lowerTokens (trim s)).map polarity).sum : ℚ) / (max r.words 1 : ℚ)) ∧
    r.sentimentLabel =
      (if thresholdPos < r.sentimentScore then "positive"
        else if r.sentimentScore < thresholdNeg then "negative"
        else "neutral") ∧
    thresholdNeg = -thresholdPos ∧
    (r.sentimentLabel = "positive" ∨ r.sentimentLabel = "negative" ∨
      r.sentimentLabel = "neutral") := by
  rcases analyze_eq_ok h with ⟨-, rfl⟩
  refine ⟨?_, rfl, by norm_num [thresholdNeg, thresholdPos], ?_⟩
  · show (sentTotal (lowerTokens (trim s)) : ℚ) / _ = _
    rw [sentTotal_eq_sum]
  · show labelOf _ = "positive" ∨ labelOf _ = "negative" ∨ labelOf _ = "neutral"
    unfold labelOf
    split
    · exact Or.inl rfl
    · split
      · exact Or.inr (Or.inl rfl)
      · exact Or.inr (Or.inr rfl)

def demo5 : List Char := "great success".toList

def rDemo5 : AnalysisResult :=
  ⟨13, 2, 2, 1, 1 / 100, 1, "positive", ["success".toList]⟩

theorem claim_C5_witness :
    rDemo5.sentimentScore =
      ((((lowerTokens (trim demo5)).map polarity).sum : ℚ) /
        (max rDemo5.words 1 : ℚ)) ∧
    rDemo5.sentimentLabel =
      (if thresholdPos < rDemo5.sentimentScore then "positive"
        else if rDemo5.sentimentScore < thresholdNeg then "negative"
        else "neutral") ∧
    thresholdNeg = -thresholdPos ∧
    (rDemo5.sentimentLabel = "positive" ∨ rDemo5.sentimentLabel = "negative" ∨
      rDemo5.sentimentLabel = "neutral") :=
  claim_C5 demo5 rDemo5 (by with_unfolding_all decide)

/-- C7: the analysis is deterministic and pure; equal inputs give equal
results, and two sequential calls on the same input agree. -/
theorem claim_C7 (s1 s2 : List Char) (h : s1 = s2) :
    analyze s1 = analyze s2 ∧ (analyzeTwice s1).1 = (analyzeTwice s1).2 :=
  ⟨by rw [h], rfl⟩

theorem claim_C7_witness :
    analyze "abc def".toList = analyze "abc def".toList ∧
    (analyzeTwice "abc def".toList).1 = (analyzeTwice "abc def".toList).2 :=
  claim_C7 _ _ rfl

/-- C9: while the client state is loading the analyze button is disabled, so
a click in the loading state changes nothing and never issues a request. -/
theorem claim_C9 (text : List Char) (outcome : FetchOutcome) :
    buttonDisabled FetchState.loading = true ∧
    clickAnalyze FetchState.loading text outcome = (FetchState.loading, false) :=
  ⟨rfl, rfl⟩

/-- C6: the keyword list has no duplicates, at most K = 5 entries, contains
only case-folded word tokens longer than 5 characters, and is ordered by
descending frequency with ties broken by the earlier first occurrence. -/
theorem claim_C6 (s : List Char) (r : AnalysisResult)
    (h : analyze s = Except.ok r) :
    r.keywords.Nodup ∧
    r.keywords.length ≤ keywordLimit ∧
    (∀ k ∈ r.keywords,
      minKeywordLength < k.length ∧ k ∈ lowerTokens (trim s)) ∧
    List.Pairwise (fun a b =>
      freqIn (lowerTokens (trim s)) b < freqIn (lowerTokens (trim s)) a ∨
        (freqIn (lowerTokens (trim s)) a = freqIn (lowerTokens (trim s)) b ∧
          firstIdx (lowerTokens (trim s)) a < firstIdx (lowerTokens (trim s)) b))
      r.keywords := by
  rcases analyze_eq_ok h with ⟨-, rfl⟩
  show (keywordsOf (lowerTokens (trim s))).Nodup ∧ _ ∧ _ ∧ _
  set toks := lowerTokens (trim s) with htoks
  have hperm : List.Perm (List.insertionSort (KwLE toks) (keywordCandidates toks))
      (keywordCandidates toks) := List.perm_insertionSort _ _
  have hnodupc : (keywordCandidates toks).Nodup := nodup_dedupFirst _
  have hnodups : (List.insertionSort (KwLE toks) (keywordCandidates toks)).Nodup :=
    hperm.nodup_iff.mpr hnodupc
  have htake : List.Sublist (keywordsOf toks)
      (List.insertionSort (KwLE toks) (keywordCandidates toks)) :=
    List.take_sublist _ _
  have hnodup : (keywordsOf toks).Nodup := hnodups.sublist htake
  have hmem : ∀ k ∈ keywordsOf toks, minKeywordLength < k.length ∧ k ∈ toks := by
    intro k hk
    have h1 : k ∈ keywordCandidates toks :=
      hperm.mem_iff.mp (htake.subset hk)
    have h2 : k ∈ toks.filter (fun t => minKeywordLength < t.length) :=
      (dedupFirst_sublist _).subset h1
    rcases List.mem_filter.mp h2 with ⟨h3, h4⟩
    exact ⟨of_decide_eq_true h4, h3⟩
  refine ⟨hnodup, ?_, hmem, ?_⟩
  · show (List.take keywordLimit _).length ≤ keywordLimit
    rw [List.length_take]
    exact min_le_left _ _
  · have hsorted : List.Pairwise (KwLE toks)
        (List.insertionSort (KwLE toks) (keywordCandidates toks)) :=
      List.sorted_insertionSort _ _
    have hpw : List.Pairwise (KwLE toks) (keywordsOf toks) :=
      hsorted.sublist htake
    refine List.Pairwise.imp_of_mem ?_ (hpw.and hnodup)
    intro a b ha hb hab
    rcases hab with ⟨hle, hne⟩
    unfold KwLE at hle
    rcases hle with h1 | h1
    · exact Or.inl h1
    · refine Or.inr ⟨h1.1, lt_of_le_of_ne h1.2 ?_⟩
      intro heq
      exact hne (firstIdx_inj (hmem a ha).2 (hmem b hb).2 heq)

def demo6 : List Char := "bananas bananas cherries".toList

def rDemo6 : AnalysisResult :=
  ⟨24, 3, 2, 1, 3 / 200, 0, "neutral",
    ["bananas".toList, "cherries".toList]⟩

theorem claim_C6_witness :
    rDemo6.keywords.Nodup ∧
    rDemo6.keywords.length ≤ keywordLimit ∧
    (∀ k ∈ rDemo6.keywords,
      minKeywordLength < k.length ∧ k ∈ lowerTokens (trim demo6)) ∧
    List.Pairwise (fun a b =>
      freqIn (lowerTokens (trim demo6)) b < freqIn (lowerTokens (trim demo6)) a ∨
        (freqIn (lowerTokens (trim demo6)) a = freqIn (lowerTokens (trim demo6)) b ∧
          firstIdx (lowerTokens (trim demo6)) a < firstIdx (lowerTokens (trim demo6)) b))
      rDemo6.keywords :=
  claim_C6 demo6 rDemo6 (by with_unfolding_all decide)

/-- C8: the transport boundary contract: the request is a JSON object with
the single string field text; a success response is 2xx with a JSON object
holding the result; a failure response is non-2xx with a JSON object holding
an error string; the client maps a non-ok response to an error state whose
message is the error field, and an ok response to a success state. -/
theorem claim_C8 (text : List Char) :
    requestBody text = Json.obj [("text", Json.str text)] ∧
    (∀ r, analyze text = Except.ok r →
      serverRespond text = (200, Json.obj [("result", encodeResult r)]) ∧
      200 ≤ (serverRespond text).1 ∧ (serverRespond text).1 < 300) ∧
    (∀ e, analyze text = Except.error e →
      (serverRespond text).2 = Json.obj [("error", Json.str serverErrorMsg.toList)] ∧
      ¬ (200 ≤ (serverRespond text).1 ∧ (serverRespond text).1 < 300)) ∧
    (∀ m, trim text ≠ [] →
      (handleAnalyze text (FetchOutcome.notOk (some (some m)))).1 =
        FetchState.error m) ∧
    (∀ r, trim text ≠ [] →
      (handleAnalyze text (FetchOutcome.respOk (Except.ok r))).1 =
        FetchState.success r) := by
  refine ⟨rfl, ?_, ?_, ?_, ?_⟩
  · intro r hr
    unfold serverRespond
    rw [hr]
    exact ⟨rfl, by norm_num, by norm_num⟩
  · intro e he
    unfold serverRespond
    rw [he]
    exact ⟨rfl, by norm_num⟩
  · intro m hm
    simp [handleAnalyze, hm]
  · intro r hm
    simp [handleAnalyze, hm]

def demo8 : List Char := "hi".toList

def rDemo8 : AnalysisResult :=
  ⟨2, 1, 1, 1, 1 / 200, 0, "neutral", []⟩

theorem claim_C8_witness :
    requestBody demo8 = Json.obj [("text", Json.str demo8)] ∧
    serverRespond demo8 = (200, Json.obj [("result", encodeResult rDemo8)]) ∧
    (serverRespond "   ".toList).2 =
      Json.obj [("error", Json.str serverErrorMsg.toList)] ∧
    (handleAnalyze demo8 (FetchOutcome.notOk (some (some "boom")))).1 =
      FetchState.error "boom" ∧
    (handleAnalyze demo8 (FetchOutcome.respOk (Except.ok rDemo8))).1 =
      FetchState.success rDemo8 :=
  ⟨(claim_C8 demo8).1,
    ((claim_C8 demo8).2.1 rDemo8 (by with_unfolding_all decide)).1,
    ((claim_C8 "   ".toList).2.2.1 AnalyzeError.emptyInput (by decide)).1,
    (claim_C8 demo8).2.2.2.1 "boom" (by decide),
    (claim_C8 demo8).2.2.2.2 rDemo8 (by decide)⟩

/-- C10 counterexample: a completed invocation of handleAnalyze on non-empty
trimmed text whose final state is an error with an EMPTY message: the server
answers non-ok with a body whose error field is the empty string, and the
nullish-coalescing fallback of page.tsx line 76 does not replace it. -/
theorem claim_C10_counterexample :
    trim "hi".toList ≠ [] ∧
    (handleAnalyze "hi".toList (FetchOutcome.notOk (some (some "")))).1 =
      FetchState.error "" ∧
    isSettledNonempty
      (handleAnalyze "hi".toList (FetchOutcome.notOk (some (some "")))).1 =
      false := by
  refine ⟨by decide, ?_, ?_⟩ <;> rfl

/-- C10 (amended): every completed invocation of handleAnalyze on non-empty
trimmed text ends settled at success or error, never stuck at loading, and a
request is always issued; when a non-ok response body is missing,
unparseable, or lacks an error field, the fixed fallback message is used
(the error message can still be empty when the server supplies an empty
error string). -/
theorem claim_C10 (text : List Char) (outcome : FetchOutcome)
    (h : trim text ≠ []) :
    isSettledState (handleAnalyze text outcome).1 = true ∧
    ((outcome = FetchOutcome.notOk none ∨
        outcome = FetchOutcome.notOk (some none)) →
      (handleAnalyze text outcome).1 = FetchState.error fallbackMsg) ∧
    (handleAnalyze text outcome).2 = true := by
  unfold handleAnalyze
  rw [if_neg h]
  cases outcome with
  | netError isErr msg =>
    exact ⟨rfl, by intro hc; rcases hc with hc | hc <;> simp at hc, rfl⟩
  | notOk payload =>
    cases payload with
    | none => exact ⟨rfl, fun _ => rfl, rfl⟩
    | some m =>
      cases m with
      | none => exact ⟨rfl, fun _ => rfl, rfl⟩
      | some m =>
        exact ⟨rfl, by intro hc; rcases hc with hc | hc <;> simp at hc, rfl⟩
  | respOk parsed =>
    cases parsed with
    | error msg =>
      exact ⟨rfl, by intro hc; rcases hc with hc | hc <;> simp at hc, rfl⟩
    | ok r =>
      exact ⟨rfl, by intro hc; rcases hc with hc | hc <;> simp at hc, rfl⟩

theorem claim_C10_witness :
    isSettledState
      (handleAnalyze "hi".toList (FetchOutcome.notOk none)).1 = true ∧
    ((FetchOutcome.notOk none = FetchOutcome.notOk none ∨
        FetchOutcome.notOk none = FetchOutcome.notOk (some none)) →
      (handleAnalyze "hi".toList (FetchOutcome.notOk none)).1 =
        FetchState.error fallbackMsg) ∧
    (handleAnalyze "hi".toList (FetchOutcome.notOk none)).2 = true :=
  claim_C10 "hi".toList (FetchOutcome.notOk none) (by decide)

end TextInsight
